import Mathlib

/-!
Verification of NanoFilt (src/nanofilt/NanoFilt.py), a streaming FASTQ
filter/trimmer.  The definitions below are a shallow embedding of the
script: `Args` is the parsed command line after `get_args`, `mainArgs`
is the tailcrop negation performed in `main`, `minlen` is the derived
length threshold of `filter_stream`, `filter_stream` is the per-record
loop of stream mode (as a step relation, because the average-quality
comparison is real-valued), and `filter_using_summary` is summary mode.
Python list/record slicing `rec[a:b]` is embedded as `pySlice`.
-/

namespace NanoFilt

/-- A parsed FASTQ record: identifier, nucleotide sequence, and the per-base
Phred quality integers (`letter_annotations["phred_quality"]` in Biopython).
The upstream codec guarantees `seq.length = qual.length`. -/
structure Record where
  id : String
  seq : List Char
  qual : List Int
deriving DecidableEq

/-- The configuration produced by `get_args`: `length` is the minimum read
length (`-l`, default 1), `headcrop`/`tailcrop` the optional crop counts,
`quality` the minimum average quality (`-q`, default 0), and `minGC`/`maxGC`
the GC-content bounds (defaults 0.0 and 1.0). -/
structure Args where
  length : Int
  headcrop : Option Int
  tailcrop : Option Int
  quality : Int
  minGC : ℚ
  maxGC : ℚ
deriving DecidableEq

/-- `main` does `if args.tailcrop: args.tailcrop = -args.tailcrop` before
dispatching: a present, non-zero tailcrop is negated (Python truthiness
leaves `None` and `0` unchanged). -/
def mainArgs (a : Args) : Args :=
  { a with tailcrop := a.tailcrop.map fun t => if t = 0 then t else -t }

/-- Resolution of one Python slice bound `i` against a list of length `n`:
negative indices count from the end, then the result is clamped to `[0, n]`. -/
def pyBound (n : Nat) (i : Int) : Nat :=
  min (max 0 (if i < 0 then i + n else i)).toNat n

/-- Python slicing `l[a:b]` with optional bounds, as used by
`rec[args.headcrop:args.tailcrop]`: a missing start defaults to 0, a missing
stop to the length. -/
def pySlice (l : List α) (a b : Option Int) : List α :=
  (l.take (match b with | none => l.length | some i => pyBound l.length i)).drop
    (match a with | none => 0 | some i => pyBound l.length i)

/-- `rec[args.headcrop:args.tailcrop]` on a Biopython `SeqRecord`: sequence and
per-base qualities are sliced in lock-step, the identifier is kept. -/
def trimRecord (args : Args) (r : Record) : Record :=
  { id := r.id
    seq := pySlice r.seq args.headcrop args.tailcrop
    qual := pySlice r.qual args.headcrop args.tailcrop }

/-- Modelled from the spec: `ave_qual` is imported from the external `nanomath`
package and its body is not under `src/`; the spec defines it as converting
each Phred value `q` to the error probability `10^(-q/10)`, averaging those in
linear space, and converting the mean back with `-10*log10`. -/
noncomputable def ave_qual (quals : List Int) : ℝ :=
  -10 * Real.logb 10 (((quals.map fun (q : Int) => (10:ℝ) ^ (-(q:ℝ) / 10)).sum) / quals.length)

/-- The derived length threshold computed once at the top of `filter_stream`:
`minlen = args.length + int(args.headcrop or 0) - (int(args.tailcrop or 0))`
(at this point `args.tailcrop` has already been negated by `main`). -/
def minlen (args : Args) : Int :=
  args.length + args.headcrop.getD 0 - args.tailcrop.getD 0

/-- GC counting from `filter_stream`:
`rec.seq.upper().count("C") + rec.seq.upper().count("G")`. -/
def gcCount (seq : List Char) : Nat :=
  (seq.map Char.toUpper).count 'C' + (seq.map Char.toUpper).count 'G'

/-- The `gc` value bound in `filter_stream`: the GC fraction of the untrimmed
sequence when one of the GC bounds was set, and the dummy value 0.5 otherwise. -/
def streamGCVal (args : Args) (r : Record) : ℚ :=
  if 0 < args.minGC ∨ args.maxGC < 1 then
    (gcCount r.seq : ℚ) / (r.seq.length : ℚ)
  else 1/2

/-- The condition under which the `gc` computation of `filter_stream` raises
`ZeroDivisionError`: a GC bound was set and the record's sequence is empty. -/
def gcErr (args : Args) (r : Record) : Prop :=
  (0 < args.minGC ∨ args.maxGC < 1) ∧ r.seq.length = 0

instance (args : Args) (r : Record) : Decidable (gcErr args r) := by
  unfold gcErr; infer_instance

/-- The pass condition of `filter_stream`:
`ave_qual(...) > args.quality and len(rec) > minlen and args.minGC <= gc <= args.maxGC`. -/
def recPasses (args : Args) (r : Record) : Prop :=
  (args.quality : ℝ) < ave_qual r.qual ∧
  minlen args < (r.seq.length : Int) ∧
  args.minGC ≤ streamGCVal args r ∧ streamGCVal args r ≤ args.maxGC

/-- The record loop of `filter_stream` as a step relation:
`filter_stream args recs out aborted` holds when running the loop on the
record stream `recs` prints exactly the trimmed records `out` (in order) and
`aborted` tells whether the run died on an unhandled `ZeroDivisionError`
while computing a GC fraction. -/
inductive filter_stream (args : Args) : List Record → List Record → Bool → Prop
  | nil : filter_stream args [] [] false
  | abort {r : Record} {rs : List Record} :
      gcErr args r → filter_stream args (r :: rs) [] true
  | emit {r : Record} {rs out : List Record} {b : Bool} :
      ¬ gcErr args r → recPasses args r → filter_stream args rs out b →
      filter_stream args (r :: rs) (trimRecord args r :: out) b
  | drop {r : Record} {rs out : List Record} {b : Bool} :
      ¬ gcErr args r → ¬ recPasses args r → filter_stream args rs out b →
      filter_stream args (r :: rs) out b

/-- The loop of `filter_using_summary`: `index` is the dictionary built from
the summary table (identifier → average quality).  The result is the list of
printed (trimmed) records together with `some id` when the run was aborted by
the `KeyError` handler (`sys.exit` naming the offending identifier `id`), or
`none` on normal completion. -/
def filter_using_summary (args : Args) (index : String → Option ℚ) :
    List Record → List Record × Option String
  | [] => ([], none)
  | r :: rs =>
    match index r.id with
    | none => ([], some r.id)
    | some q =>
      if (args.quality : ℚ) < q ∧ (args.length : Int) < (r.seq.length : Int) then
        ((filter_using_summary args index rs).1.cons (trimRecord args r),
         (filter_using_summary args index rs).2)
      else filter_using_summary args index rs

/-- The pass condition of summary mode, for the record-level characterisation:
the identifier is present in the summary index with a quality above the
threshold and the record is longer than `args.length`. -/
def summaryPasses (args : Args) (index : String → Option ℚ) (r : Record) : Prop :=
  ∃ q, index r.id = some q ∧ (args.quality : ℚ) < q ∧
    (args.length : Int) < (r.seq.length : Int)

@[simp] lemma mainArgs_length (a : Args) : (mainArgs a).length = a.length := rfl

@[simp] lemma mainArgs_headcrop (a : Args) : (mainArgs a).headcrop = a.headcrop := rfl

@[simp] lemma mainArgs_quality (a : Args) : (mainArgs a).quality = a.quality := rfl

@[simp] lemma mainArgs_minGC (a : Args) : (mainArgs a).minGC = a.minGC := rfl

@[simp] lemma mainArgs_maxGC (a : Args) : (mainArgs a).maxGC = a.maxGC := rfl

lemma mainArgs_tailcrop (a : Args) :
    (mainArgs a).tailcrop = a.tailcrop.map fun t => if t = 0 then t else -t := rfl

/-- On a uniform quality list every error probability is the same, so the
linear-space average round-trips exactly through the log conversions. -/
lemma ave_qual_const (v : Int) (n : Nat) (hn : n ≠ 0) :
    ave_qual (List.replicate n v) = (v : ℝ) := by
  have hn' : (n : ℝ) ≠ 0 := Nat.cast_ne_zero.mpr hn
  unfold ave_qual
  rw [List.map_replicate, List.sum_replicate, List.length_replicate, nsmul_eq_mul,
    mul_div_cancel_left₀ _ hn',
    Real.logb_rpow (by norm_num : (0:ℝ) < 10) (by norm_num : (10:ℝ) ≠ 1)]
  ring

/-- Length of the Python slice `l[headcrop:tailcrop]` after `main`'s negation,
for a non-negative headcrop and a tailcrop that is absent or positive:
exactly `headcrop + tailcrop` elements are removed, truncated at zero. -/
lemma length_trim (a : Args) (l : List α)
    (hh : 0 ≤ a.headcrop.getD 0)
    (ht : a.tailcrop = none ∨ 0 < a.tailcrop.getD 0) :
    (pySlice l (mainArgs a).headcrop (mainArgs a).tailcrop).length =
      l.length - ((a.headcrop.getD 0).toNat + (a.tailcrop.getD 0).toNat) := by
  rcases hhc : a.headcrop with _ | h <;> rcases htc : a.tailcrop with _ | t <;>
    rw [htc] at ht <;> rw [hhc] at hh <;>
    simp only [Option.getD_some, Option.getD_none] at hh ht
  · simp [pySlice, mainArgs, htc, hhc]
  · have htp : 0 < t := by
      rcases ht with ht | ht
      · exact absurd ht (by simp)
      · exact ht
    have htz : ¬ t = 0 := by omega
    simp only [mainArgs_headcrop, hhc, htc, mainArgs_tailcrop, Option.map_some',
      htz, if_false, pySlice, pyBound, List.length_drop, List.length_take,
      Option.getD_some, Option.getD_none]
    split <;> omega
  · simp only [mainArgs_headcrop, hhc, htc, mainArgs_tailcrop, Option.map_none',
      pySlice, pyBound, List.length_drop, List.length_take,
      Option.getD_some, Option.getD_none]
    split <;> omega
  · have htp : 0 < t := by
      rcases ht with ht | ht
      · exact absurd ht (by simp)
      · exact ht
    have htz : ¬ t = 0 := by omega
    simp only [mainArgs_headcrop, hhc, htc, mainArgs_tailcrop, Option.map_some',
      htz, if_false, pySlice, pyBound, List.length_drop, List.length_take,
      Option.getD_some]
    split <;> split <;> omega

/-- Claim C1 (amended): after `main` negates a present non-zero tailcrop and
`filter_stream` subtracts the stored (negated) value, the per-run length
threshold equals `min_length + headcrop + tailcrop` — the user-facing tailcrop
is added, not subtracted.  With a non-negative min_length and headcrop and a
tailcrop that is absent or positive, every record passing the length test has
post-trim length exceeding min_length. -/
theorem claim1_minlen_threshold (a : Args) (r : Record)
    (hL : 0 ≤ a.length)
    (hh : 0 ≤ a.headcrop.getD 0)
    (ht : a.tailcrop = none ∨ 0 < a.tailcrop.getD 0) :
    minlen (mainArgs a) = a.length + a.headcrop.getD 0 + a.tailcrop.getD 0 ∧
    (minlen (mainArgs a) < (r.seq.length : Int) →
      a.length < ((trimRecord (mainArgs a) r).seq.length : Int)) := by
  have hml : minlen (mainArgs a) = a.length + a.headcrop.getD 0 + a.tailcrop.getD 0 := by
    rcases htc : a.tailcrop with _ | t
    · simp [minlen, mainArgs, htc]
    · rw [htc] at ht
      have htp : 0 < t := by simpa using ht
      have htz : ¬ t = 0 := by omega
      simp only [minlen, mainArgs_length, mainArgs_headcrop, mainArgs_tailcrop, htc,
        Option.map_some', htz, if_false, Option.getD_some]
      ring
  refine ⟨hml, fun hlen => ?_⟩
  have h1 := length_trim a r.seq hh ht
  have ht0 : 0 ≤ a.tailcrop.getD 0 := by
    rcases ht with h | h
    · simp [h]
    · omega
  rw [show (trimRecord (mainArgs a) r).seq =
      pySlice r.seq (mainArgs a).headcrop (mainArgs a).tailcrop from rfl, h1]
  omega

/-- Claim C1 counterexample: with min_length 1, headcrop 0 and tailcrop 2 the
threshold actually applied is 1 + 0 + 2 = 3, not min_length + headcrop -
tailcrop = -1 as the claim states. -/
theorem claim1_cex :
    minlen (mainArgs ⟨1, some 0, some 2, 0, 0, 1⟩) = 3 ∧
    ¬ (minlen (mainArgs ⟨1, some 0, some 2, 0, 0, 1⟩) =
        (⟨1, some 0, some 2, 0, 0, 1⟩ : Args).length +
        (⟨1, some 0, some 2, 0, 0, 1⟩ : Args).headcrop.getD 0 -
        (⟨1, some 0, some 2, 0, 0, 1⟩ : Args).tailcrop.getD 0) := by
  constructor <;> decide

/-- Witness for the amended claim C1 at a concrete configuration and record. -/
theorem claim1_witness :
    (0 ≤ (⟨1, some 2, some 3, 0, 0, 1⟩ : Args).length) ∧
    (0 ≤ (⟨1, some 2, some 3, 0, 0, 1⟩ : Args).headcrop.getD 0) ∧
    ((⟨1, some 2, some 3, 0, 0, 1⟩ : Args).tailcrop = none ∨
      0 < (⟨1, some 2, some 3, 0, 0, 1⟩ : Args).tailcrop.getD 0) ∧
    (minlen (mainArgs ⟨1, some 2, some 3, 0, 0, 1⟩) =
        (⟨1, some 2, some 3, 0, 0, 1⟩ : Args).length +
        (⟨1, some 2, some 3, 0, 0, 1⟩ : Args).headcrop.getD 0 +
        (⟨1, some 2, some 3, 0, 0, 1⟩ : Args).tailcrop.getD 0 ∧
      (minlen (mainArgs ⟨1, some 2, some 3, 0, 0, 1⟩) <
          ((⟨"w", ['A','C','G','T','A','C','G','T','A','C'], List.replicate 10 9⟩ :
            Record).seq.length : Int) →
        (⟨1, some 2, some 3, 0, 0, 1⟩ : Args).length <
          ((trimRecord (mainArgs ⟨1, some 2, some 3, 0, 0, 1⟩)
            ⟨"w", ['A','C','G','T','A','C','G','T','A','C'], List.replicate 10 9⟩).seq.length :
            Int))) :=
  ⟨by decide, by decide, by decide,
    claim1_minlen_threshold ⟨1, some 2, some 3, 0, 0, 1⟩
      ⟨"w", ['A','C','G','T','A','C','G','T','A','C'], List.replicate 10 9⟩
      (by decide) (by decide) (by decide)⟩

/-- Claim C3 (amended): for a non-negative headcrop and a tailcrop that is
absent or positive, the output of the trim applied to every (in particular
every passing) record, in either mode, has sequence length
`length(input) - headcrop - tailcrop` clamped at 0, and its sequence and
quality arrays have equal length.  A configured tailcrop of exactly 0 is not
negated by `main` (Python truthiness) and the slice `rec[headcrop:0]` empties
the record instead, which the counterexample exhibits. -/
theorem claim3_trim_length (a : Args) (r : Record)
    (hh : 0 ≤ a.headcrop.getD 0)
    (ht : a.tailcrop = none ∨ 0 < a.tailcrop.getD 0) :
    (trimRecord (mainArgs a) r).seq.length =
      r.seq.length - ((a.headcrop.getD 0).toNat + (a.tailcrop.getD 0).toNat) ∧
    (r.seq.length = r.qual.length →
      (trimRecord (mainArgs a) r).seq.length = (trimRecord (mainArgs a) r).qual.length) := by
  have h1 := length_trim a r.seq hh ht
  have h2 := length_trim a r.qual hh ht
  refine ⟨h1, fun hlq => ?_⟩
  rw [show (trimRecord (mainArgs a) r).seq =
      pySlice r.seq (mainArgs a).headcrop (mainArgs a).tailcrop from rfl,
    show (trimRecord (mainArgs a) r).qual =
      pySlice r.qual (mainArgs a).headcrop (mainArgs a).tailcrop from rfl,
    h1, h2, hlq]

/-- Claim C3 counterexample: config min_length 1, no headcrop, tailcrop 0,
min_quality -1, default GC bounds; the record of length 3 passes the stream
filter, but the emitted record is empty (slice `rec[None:0]`), while the
claimed clamped formula gives 3 - 0 - 0 = 3. -/
theorem claim3_cex :
    recPasses (mainArgs ⟨1, none, some 0, -1, 0, 1⟩) ⟨"r1", ['A','C','G'], [0,0,0]⟩ ∧
    (trimRecord (mainArgs ⟨1, none, some 0, -1, 0, 1⟩)
      ⟨"r1", ['A','C','G'], [0,0,0]⟩).seq.length = 0 ∧
    (⟨"r1", ['A','C','G'], [0,0,0]⟩ : Record).seq.length -
      (((⟨1, none, some 0, -1, 0, 1⟩ : Args).headcrop.getD 0).toNat +
       ((⟨1, none, some 0, -1, 0, 1⟩ : Args).tailcrop.getD 0).toNat) = 3 := by
  refine ⟨⟨?_, by decide, ?_, ?_⟩, by decide, by decide⟩
  · have h : ave_qual [0, 0, 0] = ((0 : Int) : ℝ) := by
      rw [show ([0, 0, 0] : List Int) = List.replicate 3 0 from rfl]
      exact ave_qual_const 0 3 (by norm_num)
    rw [h]
    norm_num
  · rw [show streamGCVal (mainArgs ⟨1, none, some 0, -1, 0, 1⟩)
        ⟨"r1", ['A','C','G'], [0,0,0]⟩ = 1/2 from by norm_num [streamGCVal, mainArgs]]
    norm_num
  · rw [show streamGCVal (mainArgs ⟨1, none, some 0, -1, 0, 1⟩)
        ⟨"r1", ['A','C','G'], [0,0,0]⟩ = 1/2 from by norm_num [streamGCVal, mainArgs]]
    norm_num

/-- Witness for the amended claim C3 at a concrete configuration and record. -/
theorem claim3_witness :
    (0 ≤ (⟨1, some 1, some 2, 0, 0, 1⟩ : Args).headcrop.getD 0) ∧
    ((⟨1, some 1, some 2, 0, 0, 1⟩ : Args).tailcrop = none ∨
      0 < (⟨1, some 1, some 2, 0, 0, 1⟩ : Args).tailcrop.getD 0) ∧
    ((trimRecord (mainArgs ⟨1, some 1, some 2, 0, 0, 1⟩)
        ⟨"w", ['A','C','G','T','A'], [1,2,3,4,5]⟩).seq.length =
      (⟨"w", ['A','C','G','T','A'], [1,2,3,4,5]⟩ : Record).seq.length -
        (((⟨1, some 1, some 2, 0, 0, 1⟩ : Args).headcrop.getD 0).toNat +
         ((⟨1, some 1, some 2, 0, 0, 1⟩ : Args).tailcrop.getD 0).toNat) ∧
      ((⟨"w", ['A','C','G','T','A'], [1,2,3,4,5]⟩ : Record).seq.length =
          (⟨"w", ['A','C','G','T','A'], [1,2,3,4,5]⟩ : Record).qual.length →
        (trimRecord (mainArgs ⟨1, some 1, some 2, 0, 0, 1⟩)
            ⟨"w", ['A','C','G','T','A'], [1,2,3,4,5]⟩).seq.length =
          (trimRecord (mainArgs ⟨1, some 1, some 2, 0, 0, 1⟩)
            ⟨"w", ['A','C','G','T','A'], [1,2,3,4,5]⟩).qual.length)) :=
  ⟨by decide, by decide,
    claim3_trim_length ⟨1, some 1, some 2, 0, 0, 1⟩
      ⟨"w", ['A','C','G','T','A'], [1,2,3,4,5]⟩ (by decide) (by decide)⟩

/-- Claim C7: `ave_qual` converts each Phred value to a linear error
probability, averages, and converts back with `-10*log10`; on a constant list
of value `v` it returns exactly `v`. -/
theorem claim7_ave_qual (q : List Int) (_hq : q ≠ []) (v : Int) (n : Nat) (hn : n ≠ 0) :
    ave_qual q =
      -10 * Real.logb 10 (((q.map fun (x : Int) => (10:ℝ) ^ (-(x:ℝ) / 10)).sum) / q.length) ∧
    ave_qual (List.replicate n v) = (v : ℝ) :=
  ⟨rfl, ave_qual_const v n hn⟩

/-- Witness for claim C7 on the list `[3]` and the constant list of two 7s. -/
theorem claim7_witness :
    (([3] : List Int) ≠ [] ∧ (2 : Nat) ≠ 0) ∧
    (ave_qual [3] =
        -10 * Real.logb 10 ((([3] : List Int).map fun (x : Int) => (10:ℝ) ^ (-(x:ℝ) / 10)).sum /
          ([3] : List Int).length) ∧
      ave_qual (List.replicate 2 (7 : Int)) = ((7 : Int) : ℝ)) :=
  ⟨⟨by decide, by decide⟩, claim7_ave_qual [3] (by decide) 7 2 (by decide)⟩

/-- Claim C2: with the GC value defined (no zero-division abort), a record is
emitted by the stream loop iff its average quality strictly exceeds the
quality threshold, its length strictly exceeds `minlen`, and the `gc` value
lies within the configured bounds; a record whose average quality equals the
threshold, or whose length equals `minlen`, is rejected. -/
theorem claim2_stream_pass_iff (args : Args) (r : Record) (hgc : ¬ gcErr args r) :
    (filter_stream args [r] [trimRecord args r] false ↔
      ((args.quality : ℝ) < ave_qual r.qual ∧ minlen args < (r.seq.length : Int) ∧
        args.minGC ≤ streamGCVal args r ∧ streamGCVal args r ≤ args.maxGC)) ∧
    (ave_qual r.qual = (args.quality : ℝ) → filter_stream args [r] [] false) ∧
    ((r.seq.length : Int) = minlen args → filter_stream args [r] [] false) := by
  refine ⟨⟨fun h => ?_, fun h => .emit hgc h .nil⟩, fun h => ?_, fun h => ?_⟩
  · cases h with
    | emit hg hp htail => exact hp
    | drop hg hp htail => cases htail
  · refine .drop hgc (fun hp => ?_) .nil
    have hlt := hp.1
    rw [h] at hlt
    exact lt_irrefl _ hlt
  · refine .drop hgc (fun hp => ?_) .nil
    have hlt := hp.2.1
    rw [h] at hlt
    exact lt_irrefl _ hlt

/-- Witness for claim C2 at a concrete configuration and record with the
default GC bounds (no abort possible). -/
theorem claim2_witness :
    ¬ gcErr ⟨1, none, none, -1, 0, 1⟩ ⟨"r2", ['A', 'C'], [0, 0]⟩ ∧
    ((filter_stream ⟨1, none, none, -1, 0, 1⟩ [⟨"r2", ['A', 'C'], [0, 0]⟩]
        [trimRecord ⟨1, none, none, -1, 0, 1⟩ ⟨"r2", ['A', 'C'], [0, 0]⟩] false ↔
      (((⟨1, none, none, -1, 0, 1⟩ : Args).quality : ℝ) <
          ave_qual (⟨"r2", ['A', 'C'], [0, 0]⟩ : Record).qual ∧
        minlen ⟨1, none, none, -1, 0, 1⟩ <
          ((⟨"r2", ['A', 'C'], [0, 0]⟩ : Record).seq.length : Int) ∧
        (⟨1, none, none, -1, 0, 1⟩ : Args).minGC ≤
          streamGCVal ⟨1, none, none, -1, 0, 1⟩ ⟨"r2", ['A', 'C'], [0, 0]⟩ ∧
        streamGCVal ⟨1, none, none, -1, 0, 1⟩ ⟨"r2", ['A', 'C'], [0, 0]⟩ ≤
          (⟨1, none, none, -1, 0, 1⟩ : Args).maxGC)) ∧
    (ave_qual (⟨"r2", ['A', 'C'], [0, 0]⟩ : Record).qual =
        (((⟨1, none, none, -1, 0, 1⟩ : Args).quality : Int) : ℝ) →
      filter_stream ⟨1, none, none, -1, 0, 1⟩ [⟨"r2", ['A', 'C'], [0, 0]⟩] [] false) ∧
    (((⟨"r2", ['A', 'C'], [0, 0]⟩ : Record).seq.length : Int) =
        minlen ⟨1, none, none, -1, 0, 1⟩ →
      filter_stream ⟨1, none, none, -1, 0, 1⟩ [⟨"r2", ['A', 'C'], [0, 0]⟩] [] false)) :=
  ⟨by decide, claim2_stream_pass_iff ⟨1, none, none, -1, 0, 1⟩
    ⟨"r2", ['A', 'C'], [0, 0]⟩ (by decide)⟩

/-- Claim C6: when a GC bound is non-default the tested value is the GC
fraction `(count C + count G) / length` of the untrimmed sequence, counted
after upper-casing (case-insensitively); with both bounds at their defaults
the dummy value 0.5 is used instead and the GC conjunct rejects no record, so
the pass condition reduces to the quality and length tests. -/
theorem claim6_gc_value (args : Args) (r : Record) :
    ((0 < args.minGC ∨ args.maxGC < 1) →
      streamGCVal args r = (gcCount r.seq : ℚ) / (r.seq.length : ℚ)) ∧
    (args.minGC = 0 → args.maxGC = 1 →
      streamGCVal args r = 1/2 ∧
      (recPasses args r ↔
        ((args.quality : ℝ) < ave_qual r.qual ∧ minlen args < (r.seq.length : Int)))) := by
  constructor
  · intro h
    rw [streamGCVal, if_pos h]
  · intro h1 h2
    have hv : streamGCVal args r = 1/2 := by
      rw [streamGCVal, if_neg]
      rw [h1, h2]
      norm_num
    refine ⟨hv, ?_⟩
    unfold recPasses
    rw [hv, h1, h2]
    constructor
    · rintro ⟨hq, hl, _, _⟩
      exact ⟨hq, hl⟩
    · rintro ⟨hq, hl⟩
      exact ⟨hq, hl, by norm_num, by norm_num⟩

/-- Witness for claim C6: a non-default bound forces the GC fraction of the
sequence; default bounds give the dummy value. -/
theorem claim6_witness :
    streamGCVal ⟨1, none, none, 0, 1/2, 1⟩ ⟨"g", ['A', 'C', 'g', 'T'], [9, 9, 9, 9]⟩ =
      ((gcCount (⟨"g", ['A', 'C', 'g', 'T'], [9, 9, 9, 9]⟩ : Record).seq : ℚ) /
        ((⟨"g", ['A', 'C', 'g', 'T'], [9, 9, 9, 9]⟩ : Record).seq.length : ℚ)) ∧
    (streamGCVal ⟨1, none, none, 0, 0, 1⟩ ⟨"g", ['A', 'C', 'g', 'T'], [9, 9, 9, 9]⟩ = 1/2 ∧
      (recPasses ⟨1, none, none, 0, 0, 1⟩ ⟨"g", ['A', 'C', 'g', 'T'], [9, 9, 9, 9]⟩ ↔
        (((⟨1, none, none, 0, 0, 1⟩ : Args).quality : ℝ) <
            ave_qual (⟨"g", ['A', 'C', 'g', 'T'], [9, 9, 9, 9]⟩ : Record).qual ∧
          minlen ⟨1, none, none, 0, 0, 1⟩ <
            ((⟨"g", ['A', 'C', 'g', 'T'], [9, 9, 9, 9]⟩ : Record).seq.length : Int)))) :=
  ⟨(claim6_gc_value ⟨1, none, none, 0, 1/2, 1⟩
      ⟨"g", ['A', 'C', 'g', 'T'], [9, 9, 9, 9]⟩).1 (Or.inl (by norm_num)),
    (claim6_gc_value ⟨1, none, none, 0, 0, 1⟩
      ⟨"g", ['A', 'C', 'g', 'T'], [9, 9, 9, 9]⟩).2 rfl rfl⟩

/-- Claim C10: in stream mode with a non-default GC bound, a record with an
empty sequence makes the run abort (unhandled `ZeroDivisionError` from
`(count C + count G) / len(rec)`): nothing is printed for the offending
record or any later one, and no other outcome is possible. -/
theorem claim10_zero_division (args : Args) (r : Record) (rs : List Record)
    (hb : 0 < args.minGC ∨ args.maxGC < 1) (h0 : r.seq.length = 0) :
    filter_stream args (r :: rs) [] true ∧
    ∀ out b, filter_stream args (r :: rs) out b → out = [] ∧ b = true := by
  have he : gcErr args r := ⟨hb, h0⟩
  refine ⟨.abort he, fun out b h => ?_⟩
  cases h with
  | abort _ => exact ⟨rfl, rfl⟩
  | emit hg _ _ => exact absurd he hg
  | drop hg _ _ => exact absurd he hg

/-- Witness for claim C10: minGC set to 1/2 and an empty record abort the run. -/
theorem claim10_witness :
    (0 < (⟨1, none, none, 0, 1/2, 1⟩ : Args).minGC ∨
      (⟨1, none, none, 0, 1/2, 1⟩ : Args).maxGC < 1) ∧
    (⟨"e", [], []⟩ : Record).seq.length = 0 ∧
    (filter_stream ⟨1, none, none, 0, 1/2, 1⟩ [⟨"e", [], []⟩] [] true ∧
      ∀ out b, filter_stream ⟨1, none, none, 0, 1/2, 1⟩ [⟨"e", [], []⟩] out b →
        out = [] ∧ b = true) :=
  ⟨Or.inl (by norm_num), rfl,
    claim10_zero_division ⟨1, none, none, 0, 1/2, 1⟩ ⟨"e", [], []⟩ []
      (Or.inl (by norm_num)) rfl⟩

/-- Claim C8: tightening any stream-mode threshold (larger min length or min
quality, narrower GC band) while keeping the crop counts can only shrink the
set of passing records. -/
theorem claim8_monotone (a a' : Args)
    (hl : a.length ≤ a'.length) (hq : a.quality ≤ a'.quality)
    (hmin : a.minGC ≤ a'.minGC) (hmax : a'.maxGC ≤ a.maxGC)
    (hh : a.headcrop = a'.headcrop) (ht : a.tailcrop = a'.tailcrop) :
    { r : Record | recPasses (mainArgs a') r } ⊆ { r : Record | recPasses (mainArgs a) r } := by
  intro r hr
  obtain ⟨h1, h2, h3, h4⟩ := hr
  have hml : minlen (mainArgs a) ≤ minlen (mainArgs a') := by
    simp only [minlen, mainArgs_length, mainArgs_headcrop, mainArgs_tailcrop, hh, ht]
    omega
  have hgcv : a.minGC ≤ streamGCVal (mainArgs a) r ∧
      streamGCVal (mainArgs a) r ≤ a.maxGC := by
    have h3' : a'.minGC ≤ streamGCVal (mainArgs a') r := h3
    have h4' : streamGCVal (mainArgs a') r ≤ a'.maxGC := h4
    by_cases hc : 0 < a.minGC ∨ a.maxGC < 1
    · have hc' : 0 < a'.minGC ∨ a'.maxGC < 1 := by
        rcases hc with h | h
        · exact Or.inl (lt_of_lt_of_le h hmin)
        · exact Or.inr (lt_of_le_of_lt hmax h)
      have e1 : streamGCVal (mainArgs a) r = (gcCount r.seq : ℚ) / (r.seq.length : ℚ) := by
        rw [streamGCVal, if_pos]
        exact hc
      have e2 : streamGCVal (mainArgs a') r = (gcCount r.seq : ℚ) / (r.seq.length : ℚ) := by
        rw [streamGCVal, if_pos]
        exact hc'
      rw [e2] at h3' h4'
      rw [e1]
      exact ⟨le_trans hmin h3', le_trans h4' hmax⟩
    · push_neg at hc
      have e1 : streamGCVal (mainArgs a) r = 1/2 := by
        rw [streamGCVal, if_neg]
        push_neg
        exact hc
      rw [e1]
      constructor
      · linarith [hc.1]
      · linarith [hc.2]
  refine ⟨?_, ?_, hgcv.1, hgcv.2⟩
  · exact lt_of_le_of_lt (by exact_mod_cast hq) h1
  · exact lt_of_le_of_lt hml h2

/-- Witness for claim C8: min length 1 vs 3, min quality 0 vs 5, GC band
widened from [0, 1] to [1/4, 3/4], same crops. -/
theorem claim8_witness :
    ((⟨1, some 1, none, 0, 0, 1⟩ : Args).length ≤ (⟨3, some 1, none, 5, 1/4, 3/4⟩ : Args).length ∧
      (⟨1, some 1, none, 0, 0, 1⟩ : Args).quality ≤ (⟨3, some 1, none, 5, 1/4, 3/4⟩ : Args).quality ∧
      (⟨1, some 1, none, 0, 0, 1⟩ : Args).minGC ≤ (⟨3, some 1, none, 5, 1/4, 3/4⟩ : Args).minGC ∧
      (⟨3, some 1, none, 5, 1/4, 3/4⟩ : Args).maxGC ≤ (⟨1, some 1, none, 0, 0, 1⟩ : Args).maxGC ∧
      (⟨1, some 1, none, 0, 0, 1⟩ : Args).headcrop = (⟨3, some 1, none, 5, 1/4, 3/4⟩ : Args).headcrop ∧
      (⟨1, some 1, none, 0, 0, 1⟩ : Args).tailcrop = (⟨3, some 1, none, 5, 1/4, 3/4⟩ : Args).tailcrop) ∧
    { r : Record | recPasses (mainArgs ⟨3, some 1, none, 5, 1/4, 3/4⟩) r } ⊆
      { r : Record | recPasses (mainArgs ⟨1, some 1, none, 0, 0, 1⟩) r } :=
  ⟨⟨by decide, by decide, by norm_num, by norm_num, rfl, rfl⟩,
    claim8_monotone ⟨1, some 1, none, 0, 0, 1⟩ ⟨3, some 1, none, 5, 1/4, 3/4⟩
      (by decide) (by decide) (by norm_num) (by norm_num) rfl rfl⟩

/-- Claim C4: in summary mode, the first streamed record whose identifier is
missing from the summary index aborts the run (`KeyError` caught, `sys.exit`
naming that identifier): the output is exactly the output for the preceding
prefix — every earlier passing record was already printed — and nothing at or
after the failure point is printed. -/
theorem claim4_summary_abort (args : Args) (index : String → Option ℚ)
    (pre : List Record) (r : Record) (post : List Record)
    (hpre : ∀ p ∈ pre, (index p.id).isSome)
    (hr : index r.id = none) :
    filter_using_summary args index (pre ++ r :: post) =
      ((filter_using_summary args index pre).1, some r.id) ∧
    (filter_using_summary args index pre).2 = none := by
  induction pre with
  | nil => simp [filter_using_summary, hr]
  | cons p ps ih =>
    have hp : (index p.id).isSome := hpre p (by simp)
    obtain ⟨q, hq⟩ := Option.isSome_iff_exists.mp hp
    have ih' := ih fun x hx => hpre x (by simp [hx])
    by_cases hc : (args.quality : ℚ) < q ∧ (args.length : Int) < (p.seq.length : Int)
    · simp only [List.cons_append, List.append_eq, filter_using_summary, hq, if_pos hc]
      refine ⟨?_, ih'.2⟩
      rw [ih'.1]
    · simp only [List.cons_append, List.append_eq, filter_using_summary, hq, if_neg hc]
      exact ih'

/-- Witness for claim C4: the identifier of the second record is absent from
the summary index; the first (passing) record is still emitted. -/
theorem claim4_witness :
    (∀ p ∈ [(⟨"a", ['A', 'C'], [0, 0]⟩ : Record)],
      ((fun s => if s = "a" then some (20 : ℚ) else none) p.id).isSome) ∧
    (fun s => if s = "a" then some (20 : ℚ) else none) (⟨"b", ['G'], [0]⟩ : Record).id = none ∧
    (filter_using_summary ⟨1, none, none, 0, 0, 1⟩
        (fun s => if s = "a" then some (20 : ℚ) else none)
        ([⟨"a", ['A', 'C'], [0, 0]⟩] ++ ⟨"b", ['G'], [0]⟩ :: []) =
      ((filter_using_summary ⟨1, none, none, 0, 0, 1⟩
          (fun s => if s = "a" then some (20 : ℚ) else none)
          [⟨"a", ['A', 'C'], [0, 0]⟩]).1, some (⟨"b", ['G'], [0]⟩ : Record).id) ∧
      (filter_using_summary ⟨1, none, none, 0, 0, 1⟩
          (fun s => if s = "a" then some (20 : ℚ) else none)
          [⟨"a", ['A', 'C'], [0, 0]⟩]).2 = none) :=
  ⟨by decide, by decide,
    claim4_summary_abort ⟨1, none, none, 0, 0, 1⟩
      (fun s => if s = "a" then some (20 : ℚ) else none)
      [⟨"a", ['A', 'C'], [0, 0]⟩] ⟨"b", ['G'], [0]⟩ [] (by decide) (by decide)⟩

/-- One step of summary mode on a single record whose identifier is found. -/
lemma filter_using_summary_single (args : Args) (index : String → Option ℚ)
    (r : Record) (q : ℚ) (hq : index r.id = some q) :
    filter_using_summary args index [r] =
      if (args.quality : ℚ) < q ∧ (args.length : Int) < (r.seq.length : Int)
      then ([trimRecord args r], none) else ([], none) := by
  simp only [filter_using_summary, hq]

/-- Claim C5: in summary mode a record whose identifier maps to quality `q`
passes iff `q` strictly exceeds the quality threshold and the length strictly
exceeds `args.length` — the raw minimum length, not the crop-adjusted
`minlen` — and the decision ignores the crop counts and the GC bounds
entirely (changing them changes neither the number of emitted records nor the
error outcome). -/
theorem claim5_summary_pass (args : Args) (index : String → Option ℚ) (r : Record)
    (q : ℚ) (h' t' : Option Int) (g1 g2 : ℚ) (hq : index r.id = some q) :
    (filter_using_summary args index [r] = ([trimRecord args r], none) ↔
      ((args.quality : ℚ) < q ∧ (args.length : Int) < (r.seq.length : Int))) ∧
    (¬ ((args.quality : ℚ) < q ∧ (args.length : Int) < (r.seq.length : Int)) →
      filter_using_summary args index [r] = ([], none)) ∧
    ((filter_using_summary ⟨args.length, h', t', args.quality, g1, g2⟩ index [r]).1.length =
        (filter_using_summary args index [r]).1.length ∧
      (filter_using_summary ⟨args.length, h', t', args.quality, g1, g2⟩ index [r]).2 =
        (filter_using_summary args index [r]).2) := by
  have e1 := filter_using_summary_single args index r q hq
  have e2 := filter_using_summary_single ⟨args.length, h', t', args.quality, g1, g2⟩ index r q hq
  by_cases hc : (args.quality : ℚ) < q ∧ (args.length : Int) < (r.seq.length : Int)
  · have e1' : filter_using_summary args index [r] = ([trimRecord args r], none) := by
      rw [e1]
      exact if_pos hc
    have e2' : filter_using_summary ⟨args.length, h', t', args.quality, g1, g2⟩ index [r] =
        ([trimRecord ⟨args.length, h', t', args.quality, g1, g2⟩ r], none) := by
      rw [e2]
      exact if_pos hc
    rw [e1', e2']
    exact ⟨iff_of_true rfl hc, fun hn => absurd hc hn, rfl, rfl⟩
  · have e1' : filter_using_summary args index [r] = ([], none) := by
      rw [e1]
      exact if_neg hc
    have e2' : filter_using_summary ⟨args.length, h', t', args.quality, g1, g2⟩ index [r] =
        ([], none) := by
      rw [e2]
      exact if_neg hc
    rw [e1', e2']
    refine ⟨iff_of_false ?_ hc, fun _ => rfl, rfl, rfl⟩
    intro he
    exact absurd (congrArg Prod.fst he) (by simp)

/-- Witness for claim C5: a record of length 1 with summary quality 20 fails
the default length threshold 1 (strictly greater required). -/
theorem claim5_witness :
    (fun s => if s = "b" then some (20 : ℚ) else none) (⟨"b", ['G'], [7]⟩ : Record).id =
      some (20 : ℚ) ∧
    ((filter_using_summary ⟨1, none, none, 0, 0, 1⟩
        (fun s => if s = "b" then some (20 : ℚ) else none) [⟨"b", ['G'], [7]⟩] =
          ([trimRecord ⟨1, none, none, 0, 0, 1⟩ ⟨"b", ['G'], [7]⟩], none) ↔
        (((⟨1, none, none, 0, 0, 1⟩ : Args).quality : ℚ) < 20 ∧
          ((⟨1, none, none, 0, 0, 1⟩ : Args).length : Int) <
            ((⟨"b", ['G'], [7]⟩ : Record).seq.length : Int))) ∧
      (¬ (((⟨1, none, none, 0, 0, 1⟩ : Args).quality : ℚ) < 20 ∧
          ((⟨1, none, none, 0, 0, 1⟩ : Args).length : Int) <
            ((⟨"b", ['G'], [7]⟩ : Record).seq.length : Int)) →
        filter_using_summary ⟨1, none, none, 0, 0, 1⟩
          (fun s => if s = "b" then some (20 : ℚ) else none) [⟨"b", ['G'], [7]⟩] =
            ([], none)) ∧
      ((filter_using_summary
            ⟨(⟨1, none, none, 0, 0, 1⟩ : Args).length, some 4, some 5,
              (⟨1, none, none, 0, 0, 1⟩ : Args).quality, 1/4, 3/4⟩
            (fun s => if s = "b" then some (20 : ℚ) else none) [⟨"b", ['G'], [7]⟩]).1.length =
          (filter_using_summary ⟨1, none, none, 0, 0, 1⟩
            (fun s => if s = "b" then some (20 : ℚ) else none) [⟨"b", ['G'], [7]⟩]).1.length ∧
        (filter_using_summary
            ⟨(⟨1, none, none, 0, 0, 1⟩ : Args).length, some 4, some 5,
              (⟨1, none, none, 0, 0, 1⟩ : Args).quality, 1/4, 3/4⟩
            (fun s => if s = "b" then some (20 : ℚ) else none) [⟨"b", ['G'], [7]⟩]).2 =
          (filter_using_summary ⟨1, none, none, 0, 0, 1⟩
            (fun s => if s = "b" then some (20 : ℚ) else none) [⟨"b", ['G'], [7]⟩]).2)) :=
  ⟨by decide,
    claim5_summary_pass ⟨1, none, none, 0, 0, 1⟩
      (fun s => if s = "b" then some (20 : ℚ) else none) ⟨"b", ['G'], [7]⟩ 20
      (some 4) (some 5) (1/4) (3/4) (by decide)⟩

open Classical in
/-- The stream loop prints exactly the in-order passing records, trimmed. -/
lemma filter_stream_out_eq (args : Args) {recs out : List Record} {b : Bool}
    (h : filter_stream args recs out b) (hb : b = false) :
    out = recs.filterMap fun r =>
      if recPasses args r then some (trimRecord args r) else none := by
  induction h with
  | nil => rfl
  | abort _ => exact absurd hb (by simp)
  | emit hg hp htail ih =>
    simp only [List.filterMap_cons, if_pos hp]
    rw [ih hb]
  | drop hg hp htail ih =>
    simp only [List.filterMap_cons, if_neg hp]
    exact ih hb

open Classical in
/-- The summary loop prints exactly the in-order passing records, trimmed,
whenever it completes without a join error. -/
lemma filter_using_summary_out_eq (args : Args) (index : String → Option ℚ) :
    ∀ recs, (filter_using_summary args index recs).2 = none →
      (filter_using_summary args index recs).1 = recs.filterMap fun r =>
        if summaryPasses args index r then some (trimRecord args r) else none := by
  intro recs
  induction recs with
  | nil => intro _; rfl
  | cons r rs ih =>
    intro h2
    rcases hq : index r.id with _ | q
    · rw [show filter_using_summary args index (r :: rs) = ([], some r.id) from by
        simp [filter_using_summary, hq]] at h2
      exact absurd h2 (by simp)
    · by_cases hc : (args.quality : ℚ) < q ∧ (args.length : Int) < (r.seq.length : Int)
      · have hp : summaryPasses args index r := ⟨q, hq, hc.1, hc.2⟩
        simp only [filter_using_summary, hq, if_pos hc] at h2 ⊢
        simp only [List.filterMap_cons, if_pos hp]
        rw [ih h2]
      · have hp : ¬ summaryPasses args index r := by
          rintro ⟨q', hq', hcq, hcl⟩
          rw [hq] at hq'
          injection hq' with e
          exact hc ⟨e ▸ hcq, hcl⟩
        simp only [filter_using_summary, hq, if_neg hc] at h2 ⊢
        simp only [List.filterMap_cons, if_neg hp]
        exact ih h2

open Classical in
/-- Claim C9: in both modes the printed output is exactly the subsequence of
input records that pass, each in trimmed form, in input order (here stated
for error-free runs; the stream-mode hypothesis that no record is empty is
the spec's precondition on `ave_qual` callers). -/
theorem claim9_output_order (args : Args) (index : String → Option ℚ)
    (recs out : List Record)
    (_hwf : ∀ r ∈ recs, r.seq.length ≠ 0)
    (hstream : filter_stream args recs out false)
    (hsum : (filter_using_summary args index recs).2 = none) :
    out = recs.filterMap
      (fun r => if recPasses args r then some (trimRecord args r) else none) ∧
    (filter_using_summary args index recs).1 = recs.filterMap
      (fun r => if summaryPasses args index r then some (trimRecord args r) else none) :=
  ⟨filter_stream_out_eq args hstream rfl, filter_using_summary_out_eq args index recs hsum⟩

open Classical in
/-- Witness for claim C9: a two-record stream, of which the first passes and
the second is too short, in both modes. -/
theorem claim9_witness :
    (∀ r ∈ [(⟨"a", ['A', 'C'], [0, 0]⟩ : Record), ⟨"b", ['G'], [0]⟩], r.seq.length ≠ 0) ∧
    filter_stream ⟨1, none, none, -1, 0, 1⟩
      [⟨"a", ['A', 'C'], [0, 0]⟩, ⟨"b", ['G'], [0]⟩]
      [trimRecord ⟨1, none, none, -1, 0, 1⟩ ⟨"a", ['A', 'C'], [0, 0]⟩] false ∧
    (filter_using_summary ⟨1, none, none, -1, 0, 1⟩
      (fun s => if s = "a" then some (20 : ℚ) else if s = "b" then some (20 : ℚ) else none)
      [⟨"a", ['A', 'C'], [0, 0]⟩, ⟨"b", ['G'], [0]⟩]).2 = none ∧
    ([trimRecord ⟨1, none, none, -1, 0, 1⟩ ⟨"a", ['A', 'C'], [0, 0]⟩] =
      [(⟨"a", ['A', 'C'], [0, 0]⟩ : Record), ⟨"b", ['G'], [0]⟩].filterMap
        (fun r => if recPasses ⟨1, none, none, -1, 0, 1⟩ r
          then some (trimRecord ⟨1, none, none, -1, 0, 1⟩ r) else none) ∧
     (filter_using_summary ⟨1, none, none, -1, 0, 1⟩
        (fun s => if s = "a" then some (20 : ℚ) else if s = "b" then some (20 : ℚ) else none)
        [⟨"a", ['A', 'C'], [0, 0]⟩, ⟨"b", ['G'], [0]⟩]).1 =
      [(⟨"a", ['A', 'C'], [0, 0]⟩ : Record), ⟨"b", ['G'], [0]⟩].filterMap
        (fun r => if summaryPasses ⟨1, none, none, -1, 0, 1⟩
            (fun s => if s = "a" then some (20 : ℚ) else if s = "b" then some (20 : ℚ) else none) r
          then some (trimRecord ⟨1, none, none, -1, 0, 1⟩ r) else none)) := by
  have hq1 : ave_qual [0, 0] = ((0 : Int) : ℝ) := by
    rw [show ([0, 0] : List Int) = List.replicate 2 0 from rfl]
    exact ave_qual_const 0 2 (by norm_num)
  have hp1 : recPasses ⟨1, none, none, -1, 0, 1⟩ ⟨"a", ['A', 'C'], [0, 0]⟩ := by
    refine ⟨?_, by decide, by norm_num [streamGCVal], by norm_num [streamGCVal]⟩
    show ((-1 : Int) : ℝ) < ave_qual [0, 0]
    rw [hq1]
    norm_num
  have hp2 : ¬ recPasses ⟨1, none, none, -1, 0, 1⟩ ⟨"b", ['G'], [0]⟩ :=
    fun hp => absurd hp.2.1 (by decide)
  have hstream : filter_stream ⟨1, none, none, -1, 0, 1⟩
      [⟨"a", ['A', 'C'], [0, 0]⟩, ⟨"b", ['G'], [0]⟩]
      [trimRecord ⟨1, none, none, -1, 0, 1⟩ ⟨"a", ['A', 'C'], [0, 0]⟩] false :=
    .emit (by decide) hp1 (.drop (by decide) hp2 .nil)
  have hsum : (filter_using_summary ⟨1, none, none, -1, 0, 1⟩
      (fun s => if s = "a" then some (20 : ℚ) else if s = "b" then some (20 : ℚ) else none)
      [⟨"a", ['A', 'C'], [0, 0]⟩, ⟨"b", ['G'], [0]⟩]).2 = none := by decide
  exact ⟨by decide, hstream, hsum,
    claim9_output_order ⟨1, none, none, -1, 0, 1⟩
      (fun s => if s = "a" then some (20 : ℚ) else if s = "b" then some (20 : ℚ) else none)
      [⟨"a", ['A', 'C'], [0, 0]⟩, ⟨"b", ['G'], [0]⟩]
      [trimRecord ⟨1, none, none, -1, 0, 1⟩ ⟨"a", ['A', 'C'], [0, 0]⟩]
      (by decide) hstream hsum⟩

end NanoFilt
